import Mathlib

/-!
Verification development for the TalentFlow recruiting-workflow application.

The definitions below are a shallow embedding of the server-side data model
(`shared/schema.ts`), the record store (`server/storage.ts`), the upload and
status-transition route handlers (`server/routes.ts`), and the pipeline
grouping / candidate ranking logic.  Database rows are Lean structures,
`gen_random_uuid()` primary keys are modelled by a fresh-id counter in the
store, timestamps are natural numbers passed explicitly, and each fallible
external call (pdf-parse, mammoth, the two Gemini calls) is modelled by an
`Except Unit` outcome supplied in an environment record.
-/

namespace TalentFlow

/-- Row of the `jobs` table (shared/schema.ts). -/
structure Job where
  id : Nat
  title : String
  department : String
  location : String
  employmentType : String
  description : String
  requirements : List String
  responsibilities : String
  salaryRange : Option String
  status : String
  createdAt : Nat
  deriving DecidableEq

/-- Result of the Gemini `matchCandidateToJob` call (server/gemini.ts).
The score is a JS number, modelled as a rational. -/
structure MatchAnalysis where
  score : Rat
  matchedSkills : List String
  missingSkills : List String
  reasoning : String
  deriving DecidableEq

/-- Result of the Gemini `analyzeResume` call (server/gemini.ts). -/
structure ResumeAnalysis where
  skills : List String
  experience : String
  education : String
  summary : String
  deriving DecidableEq

/-- Row of the `candidates` table (shared/schema.ts); nullable columns are
`Option`. -/
structure Candidate where
  id : Nat
  name : String
  email : String
  phone : Option String
  resumeUrl : Option String
  resumeText : Option String
  skills : Option (List String)
  experience : Option String
  education : Option String
  linkedinUrl : Option String
  portfolioUrl : Option String
  createdAt : Nat
  deriving DecidableEq

/-- Insert shape for `candidates` (`insertCandidateSchema` omits id and
createdAt). -/
structure InsertCandidate where
  name : String
  email : String
  phone : Option String
  resumeUrl : Option String
  resumeText : Option String
  skills : Option (List String)
  experience : Option String
  education : Option String
  linkedinUrl : Option String
  portfolioUrl : Option String
  deriving DecidableEq

/-- Row of the `applications` table (shared/schema.ts). -/
structure Application where
  id : Nat
  jobId : Nat
  candidateId : Nat
  status : String
  matchScore : Option Int
  aiAnalysis : Option MatchAnalysis
  appliedAt : Nat
  updatedAt : Nat
  notes : Option String
  deriving DecidableEq

/-- Insert shape for `applications` (`insertApplicationSchema` omits id,
appliedAt, updatedAt). -/
structure InsertApplication where
  jobId : Nat
  candidateId : Nat
  status : String
  matchScore : Option Int
  aiAnalysis : Option MatchAnalysis
  notes : Option String
  deriving DecidableEq

/-- Row of the `interviews` table (shared/schema.ts). -/
structure Interview where
  id : Nat
  applicationId : Nat
  scheduledAt : Nat
  duration : Nat
  interviewerName : Option String
  interviewerEmail : Option String
  meetingLink : Option String
  notes : Option String
  status : String
  createdAt : Nat
  deriving DecidableEq

/-- The record store: the four tables plus a counter supplying fresh
primary keys (modelling `gen_random_uuid()`). -/
structure Store where
  jobs : List Job
  candidates : List Candidate
  applications : List Application
  interviews : List Interview
  nextId : Nat
  deriving DecidableEq

/-- The six status literals documented for `applications.status`
(shared/schema.ts comment: applied, screening, interview, offer, hired,
rejected). -/
def validStatuses : List String :=
  ["applied", "screening", "interview", "offer", "hired", "rejected"]

/-- JavaScript `Math.round` on a finite number: round half toward
positive infinity. -/
def jsRound (q : Rat) : Int :=
  Int.floor (q + 1 / 2)

/-- `DatabaseStorage.getJobById` (server/storage.ts). -/
def getJobById (st : Store) (id : Nat) : Option Job :=
  st.jobs.find? fun j => j.id == id

/-- `DatabaseStorage.getCandidateByEmail` (server/storage.ts). -/
def getCandidateByEmail (st : Store) (email : String) : Option Candidate :=
  st.candidates.find? fun c => c.email == email

/-- `DatabaseStorage.createCandidate`: insert with a fresh id and
`createdAt` defaulted to the current time. -/
def createCandidate (st : Store) (ic : InsertCandidate) (now : Nat) :
    Candidate × Store :=
  let c : Candidate :=
    { id := st.nextId, name := ic.name, email := ic.email, phone := ic.phone,
      resumeUrl := ic.resumeUrl, resumeText := ic.resumeText,
      skills := ic.skills, experience := ic.experience,
      education := ic.education, linkedinUrl := ic.linkedinUrl,
      portfolioUrl := ic.portfolioUrl, createdAt := now }
  (c, { st with candidates := st.candidates ++ [c], nextId := st.nextId + 1 })

/-- `DatabaseStorage.createApplication`: insert with a fresh id,
`appliedAt` and `updatedAt` defaulted to the current time. -/
def createApplication (st : Store) (ia : InsertApplication) (now : Nat) :
    Application × Store :=
  let a : Application :=
    { id := st.nextId, jobId := ia.jobId, candidateId := ia.candidateId,
      status := ia.status, matchScore := ia.matchScore,
      aiAnalysis := ia.aiAnalysis, appliedAt := now, updatedAt := now,
      notes := ia.notes }
  (a,
   { st with applications := st.applications ++ [a], nextId := st.nextId + 1 })

/-- `DatabaseStorage.updateApplicationStatus`: `UPDATE applications SET
status, updated_at WHERE id = ... RETURNING`; returns the updated row or
none when the id resolves to no row. -/
def updateApplicationStatus (st : Store) (id : Nat) (status : String)
    (now : Nat) : Option Application × Store :=
  let apps := st.applications.map fun a =>
    if a.id = id then { a with status := status, updatedAt := now } else a
  (apps.find? (fun a => a.id == id), { st with applications := apps })

/-- Placeholder analysis substituted when `analyzeResume` throws
(server/routes.ts, upload handler catch block). -/
def placeholderAnalysis : ResumeAnalysis :=
  { skills := [], experience := "Not analyzed", education := "Not analyzed",
    summary := "AI analysis unavailable" }

/-- Outcomes of the external calls made during one upload request:
pdf-parse on the uploaded file, mammoth on the uploaded file, and the two
Gemini calls (which receive the extracted text resp. the candidate and job
attributes). `Except.error` models the call throwing. -/
structure UploadEnv where
  pdfParse : Except Unit String
  docxExtract : Except Unit String
  analyzeResume : String → Except Unit ResumeAnalysis
  matchCandidateToJob :
    List String → String → List String → String → Except Unit MatchAnalysis

/-- `extractTextFromPDF` (server/routes.ts): catches its own errors and
returns the empty string on failure — it never propagates the throw. -/
def extractTextFromPDF (env : UploadEnv) : String :=
  match env.pdfParse with
  | .ok t => t
  | .error _ => ""

/-- `extractTextFromDOCX` (server/routes.ts): no internal catch, a mammoth
failure propagates. -/
def extractTextFromDOCX (env : UploadEnv) : Except Unit String :=
  env.docxExtract

/-- The extraction step of the upload handler (the try block around the
two format branches): an unrecognized extension leaves the text empty. -/
def extractResumeText (env : UploadEnv) (ext : String) :
    Except Unit String :=
  if ext = ".pdf" then .ok (extractTextFromPDF env)
  else if ext = ".docx" then extractTextFromDOCX env
  else .ok ""

/-- One multipart upload request after multer: `hasFile` is whether a file
arrived, `ext` is `path.extname(file.filename).toLowerCase()`, the rest is
the form body. A missing body field is the empty string / `none`. -/
structure UploadRequest where
  hasFile : Bool
  filename : String
  ext : String
  name : String
  email : String
  phone : Option String
  jobId : Option Nat

/-- Response of POST /api/candidates/upload. -/
inductive UploadResult where
  | created (candidate : Candidate) (application : Application)
      (analysis : ResumeAnalysis)
  | badRequest (msg : String)
  | notFound (msg : String)
  deriving DecidableEq

/-- Whether an upload response is the 201 success shape. -/
def UploadResult.isCreated : UploadResult → Bool
  | .created _ _ _ => true
  | _ => false

/-- The applications stored in the 201 response, if any. -/
def UploadResult.applicationOf : UploadResult → Option Application
  | .created _ a _ => some a
  | _ => none

/-- The upload handler's try/catch around `analyzeResume`
(server/routes.ts, lines 156-169): a throw is replaced by the placeholder
analysis and the request continues. -/
def runAnalyzeResume (env : UploadEnv) (resumeText : String) :
    ResumeAnalysis :=
  match env.analyzeResume resumeText with
  | .ok a => a
  | .error _ => placeholderAnalysis

/-- The create-or-reuse candidate step of the upload handler
(server/routes.ts, lines 139 and 171-183): the candidate looked up by
email earlier in the handler is reused; otherwise a new candidate is
created from the form fields and the extracted/analyzed attributes. -/
def resolveCandidate (req : UploadRequest) (st : Store) (now : Nat)
    (resumeText : String) (analysis : ResumeAnalysis) : Candidate × Store :=
  match getCandidateByEmail st req.email with
  | some c => (c, st)
  | none =>
    createCandidate st
      { name := req.name, email := req.email, phone := req.phone,
        resumeUrl := some ("/uploads/" ++ req.filename),
        resumeText := some resumeText, skills := some analysis.skills,
        experience := some analysis.experience,
        education := some analysis.education,
        linkedinUrl := none, portfolioUrl := none } now

/-- The upload handler's try/catch around `matchCandidateToJob`
(server/routes.ts, lines 192-206): on success the score is rounded with
`Math.round` and the analysis kept; a throw yields a null score and null
analysis. -/
def runMatch (env : UploadEnv) (analysis : ResumeAnalysis) (job : Job) :
    Option Int × Option MatchAnalysis :=
  match env.matchCandidateToJob analysis.skills analysis.experience
      job.requirements job.description with
  | .ok m => (some (jsRound m.score), some m)
  | .error _ => (none, none)

/-- POST /api/candidates/upload (server/routes.ts, lines 126-226), step by
step in source order: file check, required-field check, candidate lookup
by email, text extraction (fatal on throw), AI analysis (placeholder on
throw), candidate creation when the email was unknown, job resolution
(404 on miss), AI matching (null score on throw), application creation. -/
def uploadResume (env : UploadEnv) (req : UploadRequest) (st : Store)
    (now : Nat) : UploadResult × Store :=
  if req.hasFile = false then
    (.badRequest ("No resume file uploaded"), st)
  else
    match req.jobId with
    | none => (.badRequest ("Name, email, and job are required"), st)
    | some jid =>
      if req.name = "" ∨ req.email = "" then
        (.badRequest ("Name, email, and job are required"), st)
      else
        match extractResumeText env req.ext with
        | .error _ => (.badRequest ("Failed to parse resume file"), st)
        | .ok resumeText =>
          let analysis := runAnalyzeResume env resumeText
          let cs := resolveCandidate req st now resumeText analysis
          match getJobById cs.2 jid with
          | none => (.notFound ("Job not found"), cs.2)
          | some job =>
            let ms := runMatch env analysis job
            let ap :=
              createApplication cs.2
                { jobId := jid, candidateId := cs.1.id, status := "applied",
                  matchScore := ms.1, aiAnalysis := ms.2, notes := none } now
            (.created cs.1 ap.1 analysis, ap.2)

/-- The result of the happy path of the upload handler, spelled out: the
analysis outcome, the reused-or-created candidate, the match outcome and
the created application. -/
def uploadHappyResult (env : UploadEnv) (req : UploadRequest) (st : Store)
    (now : Nat) (jid : Nat) (job : Job) (txt : String) :
    UploadResult × Store :=
  let an := runAnalyzeResume env txt
  let cs := resolveCandidate req st now txt an
  let ms := runMatch env an job
  let ap :=
    createApplication cs.2
      { jobId := jid, candidateId := cs.1.id, status := "applied",
        matchScore := ms.1, aiAnalysis := ms.2, notes := none } now
  (.created cs.1 ap.1 an, ap.2)

/-- Response of PATCH /api/applications/:id/status. -/
inductive PatchResult where
  | ok (application : Application)
  | badRequest (msg : String)
  | notFound (msg : String)
  deriving DecidableEq

/-- PATCH /api/applications/:id/status (server/routes.ts, lines 322-336):
reject a falsy status, otherwise delegate to
`updateApplicationStatus` and 404 when no row matched. -/
def patchApplicationStatus (st : Store) (id : Nat) (status : String)
    (now : Nat) : PatchResult × Store :=
  if status = "" then (.badRequest ("Status is required"), st)
  else
    let r := updateApplicationStatus st id status now
    match r.1 with
    | none => (.notFound ("Application not found"), r.2)
    | some app => (.ok app, r.2)

/-- The five kanban columns of the pipeline page
(client/src/pages/pipeline.tsx, `statusColumns`). -/
def statusColumns : List String :=
  ["applied", "screening", "interview", "offer", "hired"]

/-- Per-column grouping of the pipeline page (`applicationsByStatus`):
the applications whose status equals the column key. -/
def applicationsByStatus (apps : List Application) (key : String) :
    List Application :=
  apps.filter fun a => a.status == key

/-- A candidate joined with its applications, the element type sorted by
`DatabaseStorage.getAllCandidatesWithApplications` (the joined job is not
read by the comparator and is not carried here). -/
structure CandidateWithApps where
  candidate : Candidate
  applications : List Application
  deriving DecidableEq

/-- `app.matchScore || 0`: a null match score counts as 0 in the ranking
comparator. -/
def appScore (a : Application) : Int :=
  match a.matchScore with
  | some s => s
  | none => 0

/-- `Math.max(...c.applications.map((app) => app.matchScore || 0))`; only
read when the application list is non-empty. -/
def maxScore (c : CandidateWithApps) : Int :=
  ((c.applications.map appScore).max?).getD 0

/-- The comparator passed to `.sort` in
`getAllCandidatesWithApplications` (server/storage.ts, lines 436-449). -/
def rankCmp (a b : CandidateWithApps) : Int :=
  if a.applications = [] ∧ b.applications = [] then
    (b.candidate.createdAt : Int) - (a.candidate.createdAt : Int)
  else if a.applications = [] then 1
  else if b.applications = [] then -1
  else maxScore b - maxScore a

/-- `a` may precede `b` under the ranking comparator. -/
def rankLE (a b : CandidateWithApps) : Prop :=
  rankCmp a b ≤ 0

instance : DecidableRel rankLE :=
  fun a b => inferInstanceAs (Decidable (rankCmp a b ≤ 0))

instance : IsTotal CandidateWithApps rankLE where
  total := by
    intro a b
    unfold rankLE rankCmp
    by_cases ha : a.applications = [] <;> by_cases hb : b.applications = [] <;>
      simp [ha, hb] <;> omega

instance : IsTrans CandidateWithApps rankLE where
  trans := by
    intro a b c hab hbc
    unfold rankLE rankCmp at hab hbc ⊢
    by_cases ha : a.applications = [] <;> by_cases hb : b.applications = [] <;>
      by_cases hc : c.applications = [] <;>
      simp [ha, hb, hc] at hab hbc ⊢ <;> omega

/-- The candidate ordering produced by
`getAllCandidatesWithApplications`: the joined list sorted by the
comparator (modelled by a sort that is correct for any consistent
comparator, as `Array.prototype.sort` is). -/
def rankCandidates (l : List CandidateWithApps) : List CandidateWithApps :=
  List.insertionSort rankLE l

/-- The ordering the spec describes, stated in its own words: earlier
candidates either beat later ones on maximum match score (both having
applications), or have applications while the later one has none, or both
have none and the earlier one was created later. -/
def claimRel (a b : CandidateWithApps) : Prop :=
  (a.applications ≠ [] ∧ b.applications ≠ [] ∧ maxScore b ≤ maxScore a) ∨
  (a.applications ≠ [] ∧ b.applications = []) ∨
  (a.applications = [] ∧ b.applications = [] ∧
    b.candidate.createdAt ≤ a.candidate.createdAt)

/-- At most one candidate record per email. -/
def EmailsUnique (st : Store) : Prop :=
  st.candidates.Pairwise fun c₁ c₂ => c₁.email ≠ c₂.email

/-- A sequence of submit operations run one after another, each with its
own external-call outcomes and timestamp. -/
def runSubmits (st : Store) : List (UploadEnv × UploadRequest × Nat) → Store
  | [] => st
  | (env, req, now) :: rest => runSubmits (uploadResume env req st now).2 rest

/-! Concrete fixtures used by the scenario theorems, counterexamples and
witnesses. -/

/-- A job row with the given id. -/
def mkJob (id : Nat) : Job :=
  { id := id, title := "Engineer", department := "Eng", location := "Remote",
    employmentType := "Full-time", description := "Build things",
    requirements := ["ts"], responsibilities := "Ship", salaryRange := none,
    status := "active", createdAt := 0 }

/-- A candidate row with the given id, email and creation time. -/
def mkCandidate (id : Nat) (email : String) (createdAt : Nat) : Candidate :=
  { id := id, name := "N", email := email, phone := none, resumeUrl := none,
    resumeText := none, skills := none, experience := none, education := none,
    linkedinUrl := none, portfolioUrl := none, createdAt := createdAt }

/-- An application row with the given keys, status and match score. -/
def mkApplication (id jobId candidateId : Nat) (status : String)
    (score : Option Int) : Application :=
  { id := id, jobId := jobId, candidateId := candidateId, status := status,
    matchScore := score, aiAnalysis := none, appliedAt := 0, updatedAt := 0,
    notes := none }

def job1 : Job := mkJob 1

def job2 : Job := mkJob 2

/-- A store holding one job and nothing else. -/
def stJob1 : Store :=
  { jobs := [job1], candidates := [], applications := [], interviews := [],
    nextId := 10 }

/-- A successful resume analysis outcome. -/
def analysisOk : ResumeAnalysis :=
  { skills := ["ts"], experience := "3y", education := "BS", summary := "ok" }

/-- A successful match outcome with the given score. -/
def matchOk (s : Rat) : MatchAnalysis :=
  { score := s, matchedSkills := ["ts"], missingSkills := [],
    reasoning := "fit" }

/-- Environment where every external call succeeds. -/
def envBase : UploadEnv :=
  { pdfParse := .ok "TEXT", docxExtract := .ok "TEXT",
    analyzeResume := fun _ => .ok analysisOk,
    matchCandidateToJob := fun _ _ _ _ => .ok (matchOk 85) }

def envDocxFail : UploadEnv := { envBase with docxExtract := .error () }

def envPdfFail : UploadEnv := { envBase with pdfParse := .error () }

def envScore150 : UploadEnv :=
  { envBase with matchCandidateToJob := fun _ _ _ _ => .ok (matchOk 150) }

def envMatchFail : UploadEnv :=
  { envBase with matchCandidateToJob := fun _ _ _ _ => .error () }

/-- A well-formed PDF upload request targeting job 1. -/
def reqPdf : UploadRequest :=
  { hasFile := true, filename := "r.pdf", ext := ".pdf", name := "Jane Doe",
    email := "jane@x.com", phone := none, jobId := some 1 }

/-- The same request with a DOCX attachment. -/
def reqDocx : UploadRequest :=
  { reqPdf with filename := "r.docx", ext := ".docx" }

/-- The same submitter applying to job 2. -/
def reqPdfJob2 : UploadRequest := { reqPdf with jobId := some 2 }

/-- A request whose jobId resolves to nothing. -/
def reqPdfNoJob : UploadRequest := { reqPdf with jobId := some 99 }

/-- A store with one application in status "applied". -/
def stOneApp : Store :=
  { jobs := [job1], candidates := [mkCandidate 1 "e@x" 0],
    applications := [mkApplication 1 1 1 "applied" (some 50)],
    interviews := [], nextId := 20 }

/-- The same store with the application already rejected. -/
def stRejected : Store :=
  { stOneApp with applications := [mkApplication 1 1 1 "rejected" (some 50)] }

/-- A store with two applications, ids 1 and 2. -/
def stTwoApps : Store :=
  { stOneApp with
    applications := [mkApplication 1 1 1 "applied" (some 50),
                     mkApplication 2 1 1 "screening" none] }

/-- The candidate jane already present in the store. -/
def candJane : Candidate := mkCandidate 5 "jane@x.com" 0

/-- A store where jane already exists, with two jobs. -/
def stJane : Store :=
  { jobs := [job1, job2], candidates := [candJane], applications := [],
    interviews := [], nextId := 30 }

/-- Ranking scenario: candidate A with max score 90. -/
def candRankA : CandidateWithApps :=
  ⟨mkCandidate 1 "a@x" 1, [mkApplication 11 1 1 "applied" (some 90)]⟩

/-- Ranking scenario: candidate B with max score 40. -/
def candRankB : CandidateWithApps :=
  ⟨mkCandidate 2 "b@x" 2, [mkApplication 12 1 2 "applied" (some 40)]⟩

/-- Ranking scenario: candidate C with no applications. -/
def candRankC : CandidateWithApps :=
  ⟨mkCandidate 3 "c@x" 3, []⟩

/-- An application already in the terminal "rejected" status. -/
def appRejected : Application := mkApplication 3 1 1 "rejected" (some 50)

/-- The application created by uploading jane's resume into `stOneApp`
with a throwing matching call: fresh ids 20 (candidate) and 21
(application), null score and analysis. -/
def appNoScore : Application :=
  { id := 21, jobId := 1, candidateId := 20, status := "applied",
    matchScore := none, aiAnalysis := none, appliedAt := 0, updatedAt := 0,
    notes := none }

/-! Helper lemmas shared by several of the claim theorems. -/

theorem getJobById_createCandidate (st : Store) (ic : InsertCandidate)
    (now jid : Nat) :
    getJobById (createCandidate st ic now).2 jid = getJobById st jid := rfl

theorem getCandidateByEmail_spec (st : Store) (email : String) (c : Candidate)
    (h : getCandidateByEmail st email = some c) :
    c ∈ st.candidates ∧ c.email = email := by
  refine ⟨List.mem_of_find?_eq_some h, ?_⟩
  have := List.find?_some h
  simpa using this

theorem getCandidateByEmail_none (st : Store) (email : String)
    (h : getCandidateByEmail st email = none) :
    ∀ c ∈ st.candidates, c.email ≠ email := by
  intro c hc
  have := List.find?_eq_none.mp h c hc
  simpa using this

/-- The row returned by a successful status update: it exists, carries the
requested status and timestamp, and sits in the updated store. -/
theorem patch_ok_of_mem (st : Store) (id : Nat) (s : String) (t : Nat)
    (hs : s ≠ "") (hex : ∃ a ∈ st.applications, a.id = id) :
    ∃ app st', patchApplicationStatus st id s t = (.ok app, st') ∧
      app.status = s ∧ app.updatedAt = t ∧ app ∈ st'.applications := by
  obtain ⟨a, ha, haid⟩ := hex
  have hmem : (if a.id = id then { a with status := s, updatedAt := t } else a)
      ∈ st.applications.map (fun a =>
        if a.id = id then { a with status := s, updatedAt := t } else a) :=
    List.mem_map_of_mem _ ha
  rw [if_pos haid] at hmem
  have hsome : (st.applications.map (fun a =>
      if a.id = id then { a with status := s, updatedAt := t } else a)
        |>.find? (fun b => b.id == id)).isSome := by
    refine List.find?_isSome.mpr ⟨_, hmem, ?_⟩
    simp [haid]
  obtain ⟨b, hb⟩ := Option.isSome_iff_exists.mp hsome
  have hbid : b.id = id := by
    have := List.find?_some hb
    simpa using this
  have hbmem := List.mem_of_find?_eq_some hb
  obtain ⟨a₀, _, ha₀⟩ := List.mem_map.mp hbmem
  have hbst : b.status = s ∧ b.updatedAt = t := by
    by_cases h : a₀.id = id
    · rw [if_pos h] at ha₀
      rw [← ha₀]
      exact ⟨rfl, rfl⟩
    · rw [if_neg h] at ha₀
      exact absurd (ha₀ ▸ hbid) h
  refine ⟨b, { st with applications := st.applications.map (fun a =>
      if a.id = id then { a with status := s, updatedAt := t } else a) },
    ?_, hbst.1, hbst.2, ?_⟩
  · simp only [patchApplicationStatus, updateApplicationStatus, if_neg hs, hb]
  · exact hbmem

/-- Shape of the application table after one upload request: either
untouched, or exactly one new application with status "applied" appended. -/
theorem createApplication_apps (st : Store) (ia : InsertApplication)
    (now : Nat) :
    (createApplication st ia now).2.applications =
      st.applications ++ [(createApplication st ia now).1] := rfl

theorem runMatch_shape (env : UploadEnv) (an : ResumeAnalysis) (job : Job) :
    ((runMatch env an job).1 = none ∧ (runMatch env an job).2 = none) ∨
    ∃ m, (runMatch env an job).1 = some (jsRound m.score) ∧
      (runMatch env an job).2 = some m := by
  unfold runMatch
  cases env.matchCandidateToJob an.skills an.experience job.requirements
      job.description with
  | error e => exact Or.inl ⟨rfl, rfl⟩
  | ok m => exact Or.inr ⟨m, rfl, rfl⟩

theorem resolveCandidate_apps (req : UploadRequest) (st : Store) (now : Nat)
    (txt : String) (an : ResumeAnalysis) :
    (resolveCandidate req st now txt an).2.applications = st.applications := by
  unfold resolveCandidate
  cases getCandidateByEmail st req.email <;> rfl

theorem resolveCandidate_none (req : UploadRequest) (st : Store) (now : Nat)
    (txt : String) (an : ResumeAnalysis)
    (hc : getCandidateByEmail st req.email = none) :
    (resolveCandidate req st now txt an).1.email = req.email ∧
    (resolveCandidate req st now txt an).2.candidates =
      st.candidates ++ [(resolveCandidate req st now txt an).1] := by
  unfold resolveCandidate
  rw [hc]
  exact ⟨rfl, rfl⟩

/-- Shape of the application table after one upload request: either
untouched, or exactly one new application appended, in status "applied"
and carrying either a null score and analysis or the rounding of a score
the matching call returned. -/
theorem upload_applications_shape (env : UploadEnv) (req : UploadRequest)
    (st : Store) (now : Nat) :
    (uploadResume env req st now).2.applications = st.applications ∨
    ∃ a, a.status = "applied" ∧
      ((a.matchScore = none ∧ a.aiAnalysis = none) ∨
        ∃ m, a.matchScore = some (jsRound m.score) ∧
          a.aiAnalysis = some m) ∧
      (uploadResume env req st now).2.applications =
        st.applications ++ [a] := by
  unfold uploadResume
  split
  · left; rfl
  split
  · left; rfl
  split
  · left; rfl
  split
  · left; rfl
  dsimp only
  split
  · left
    exact resolveCandidate_apps req st now _ _
  · right
    rw [createApplication_apps, resolveCandidate_apps]
    refine ⟨_, ?_, ?_, rfl⟩
    · rfl
    · simpa [createApplication] using runMatch_shape env _ _

/-- C3 counterexample: an application in the (valid) status "rejected"
appears in none of the five displayed pipeline columns, so the union of
the per-column groups misses it. -/
theorem pipeline_omits_rejected :
    (statusColumns.map (applicationsByStatus [appRejected])).flatten =
      ([] : List Application) ∧
    [appRejected] ≠ ([] : List Application) ∧
    appRejected.status ∈ validStatuses := by
  decide

/-- C3 (amended): over the five displayed status columns the groups are
pairwise disjoint and each group holds exactly the applications bearing
its key, so the union of the groups is exactly the set of applications
whose status is one of the five displayed column keys — an application in
the sixth status "rejected" is omitted from every column. -/
theorem pipeline_groups_partition (apps : List Application) :
    (∀ k₁ ∈ statusColumns, ∀ k₂ ∈ statusColumns, k₁ ≠ k₂ →
      ∀ a ∈ applicationsByStatus apps k₁, a ∉ applicationsByStatus apps k₂) ∧
    (∀ k ∈ statusColumns, ∀ a,
      a ∈ applicationsByStatus apps k ↔ a ∈ apps ∧ a.status = k) ∧
    (∀ a, (∃ k ∈ statusColumns, a ∈ applicationsByStatus apps k) ↔
      a ∈ apps ∧ a.status ∈ statusColumns) := by
  refine ⟨?_, ?_, ?_⟩
  · intro k₁ _ k₂ _ hne a hmem hmem'
    simp only [applicationsByStatus, List.mem_filter, beq_iff_eq] at hmem hmem'
    exact hne (hmem.2 ▸ hmem'.2)
  · intro k _ a
    simp [applicationsByStatus, List.mem_filter]
  · intro a
    constructor
    · rintro ⟨k, hk, hmem⟩
      simp only [applicationsByStatus, List.mem_filter, beq_iff_eq] at hmem
      exact ⟨hmem.1, hmem.2 ▸ hk⟩
    · rintro ⟨ha, hs⟩
      exact ⟨a.status, hs, by simp [applicationsByStatus, List.mem_filter, ha]⟩

/-- Witness for the C3 theorem at a concrete application set. -/
theorem pipeline_groups_partition_witness :
    appRejected ∈ [appRejected] ∧ "applied" ∈ statusColumns ∧
    (appRejected ∈ applicationsByStatus [appRejected] "applied" ↔
      appRejected ∈ [appRejected] ∧ appRejected.status = "applied") :=
  ⟨by decide, by decide,
    (pipeline_groups_partition [appRejected]).2.1 "applied" (by decide)
      appRejected⟩

/-- C4 counterexample: a transition request carrying the non-empty string
"archived" — not one of the six status literals — succeeds and stores
"archived" as the application's status. -/
theorem invalid_status_stored :
    ((patchApplicationStatus stOneApp 1 "archived" 7).2.applications.map
      Application.status) = ["archived"] ∧
    "archived" ∉ validStatuses ∧ "archived" ≠ "" := by
  decide

/-- C4 (amended): an application is created with status "applied"; a
transition request carrying any non-empty string — valid or not — stores
that string verbatim on the targeted application; the empty (missing)
status is the only rejected input. -/
theorem status_stored_verbatim (env : UploadEnv) (req : UploadRequest)
    (st : Store) (id : Nat) (s : String) (now t : Nat)
    (hs : s ≠ "") (hex : ∃ a ∈ st.applications, a.id = id) :
    (∃ app st', patchApplicationStatus st id s t = (.ok app, st') ∧
      app.status = s ∧ app ∈ st'.applications) ∧
    (∀ a ∈ (uploadResume env req st now).2.applications,
      a ∈ st.applications ∨ a.status = "applied") ∧
    patchApplicationStatus st id "" t = (.badRequest ("Status is required"), st) := by
  refine ⟨?_, ?_, by simp [patchApplicationStatus]⟩
  · obtain ⟨app, st', h1, h2, _, h4⟩ := patch_ok_of_mem st id s t hs hex
    exact ⟨app, st', h1, h2, h4⟩
  · intro a ha
    rcases upload_applications_shape env req st now with hsh | ⟨a₀, ha₀, -, hsh⟩
    · rw [hsh] at ha
      exact Or.inl ha
    · rw [hsh, List.mem_append, List.mem_singleton] at ha
      rcases ha with ha | ha
      · exact Or.inl ha
      · exact Or.inr (ha ▸ ha₀)

/-- Witness for the C4 theorem at a concrete store and request. -/
theorem status_stored_verbatim_witness :
    (∃ app st', patchApplicationStatus stOneApp 1 "screening" 9 =
        (.ok app, st') ∧ app.status = "screening" ∧
        app ∈ st'.applications) ∧
    (∀ a ∈ (uploadResume envMatchFail reqPdf stOneApp 0).2.applications,
      a ∈ stOneApp.applications ∨ a.status = "applied") ∧
    patchApplicationStatus stOneApp 1 "" 9 =
      (.badRequest ("Status is required"), stOneApp) :=
  status_stored_verbatim envMatchFail reqPdf stOneApp 1 "screening" 0 9
    (by decide) ⟨mkApplication 1 1 1 "applied" (some 50), by decide, by decide⟩

/-- C5: for an existing application id and any of the six status literals
the transition succeeds whatever the current status is (in particular out
of "hired" or "rejected" — there is no transition-order check), and it is
idempotent: running the same transition twice leaves the same store as
running it once. -/
theorem transition_total_and_idempotent (st : Store) (id : Nat) (s : String)
    (t t₁ t₂ : Nat) (hs : s ∈ validStatuses)
    (hex : ∃ a ∈ st.applications, a.id = id) :
    (∃ app st', patchApplicationStatus st id s t = (.ok app, st') ∧
      app.status = s) ∧
    updateApplicationStatus (updateApplicationStatus st id s t₁).2 id s t₂ =
      updateApplicationStatus st id s t₂ := by
  have hs' : s ≠ "" := by fin_cases hs <;> decide
  refine ⟨?_, ?_⟩
  · obtain ⟨app, st', h1, h2, -, -⟩ := patch_ok_of_mem st id s t hs' hex
    exact ⟨app, st', h1, h2⟩
  · unfold updateApplicationStatus
    dsimp only
    simp only [List.map_map]
    have hfun : ((fun a : Application =>
        if a.id = id then { a with status := s, updatedAt := t₂ } else a) ∘
        fun a : Application =>
        if a.id = id then { a with status := s, updatedAt := t₁ } else a) =
        fun a : Application =>
        if a.id = id then { a with status := s, updatedAt := t₂ } else a := by
      funext a
      by_cases h : a.id = id <;> simp [Function.comp_apply, h]
    rw [hfun]

/-- Witness for the C5 theorem: transitioning application 1 out of
"rejected" into "interview" succeeds, twice gives the once-store. -/
theorem transition_total_and_idempotent_witness :
    (∃ app st', patchApplicationStatus stRejected 1 "interview" 5 =
      (.ok app, st') ∧ app.status = "interview") ∧
    updateApplicationStatus
        (updateApplicationStatus stRejected 1 "interview" 5).2 1
        "interview" 6 =
      updateApplicationStatus stRejected 1 "interview" 6 :=
  transition_total_and_idempotent stRejected 1 "interview" 5 5 6 (by decide)
    ⟨mkApplication 1 1 1 "rejected" (some 50), by decide, by decide⟩

/-- C6: a status transition touches only the status and updatedAt fields
of the targeted application: jobs, candidates, interviews and the id
counter are untouched, every application with a different id is unchanged,
and every application in the updated store keeps the jobId, candidateId,
matchScore, aiAnalysis, appliedAt and notes of a stored application with
its id. -/
theorem transition_frame (st : Store) (id : Nat) (s : String) (now : Nat) :
    ((updateApplicationStatus st id s now).2.jobs = st.jobs) ∧
    ((updateApplicationStatus st id s now).2.candidates = st.candidates) ∧
    ((updateApplicationStatus st id s now).2.interviews = st.interviews) ∧
    ((updateApplicationStatus st id s now).2.nextId = st.nextId) ∧
    (∀ a ∈ st.applications, a.id ≠ id →
      a ∈ (updateApplicationStatus st id s now).2.applications) ∧
    (∀ a' ∈ (updateApplicationStatus st id s now).2.applications,
      ∃ a ∈ st.applications, a'.id = a.id ∧ a'.jobId = a.jobId ∧
        a'.candidateId = a.candidateId ∧ a'.matchScore = a.matchScore ∧
        a'.aiAnalysis = a.aiAnalysis ∧ a'.appliedAt = a.appliedAt ∧
        a'.notes = a.notes) := by
  refine ⟨rfl, rfl, rfl, rfl, ?_, ?_⟩
  · intro a ha hne
    have hm := List.mem_map_of_mem (fun a : Application =>
      if a.id = id then { a with status := s, updatedAt := now } else a) ha
    simp only [if_neg hne] at hm
    exact hm
  · intro a' ha'
    have ha2 : a' ∈ st.applications.map (fun a : Application =>
        if a.id = id then { a with status := s, updatedAt := now } else a) :=
      ha'
    obtain ⟨a, ha, rfl⟩ := List.mem_map.mp ha2
    refine ⟨a, ha, ?_⟩
    by_cases h : a.id = id <;> simp [h]

/-- Witness for the C6 theorem: the untargeted application 2 survives the
transition of application 1 unchanged, and interviews are untouched. -/
theorem transition_frame_witness :
    mkApplication 2 1 1 "screening" none ∈
      (updateApplicationStatus stTwoApps 1 "offer" 5).2.applications ∧
    (updateApplicationStatus stTwoApps 1 "offer" 5).2.interviews =
      stTwoApps.interviews :=
  ⟨(transition_frame stTwoApps 1 "offer" 5).2.2.2.2.1
      (mkApplication 2 1 1 "screening" none) (by decide) (by decide),
   (transition_frame stTwoApps 1 "offer" 5).2.2.1⟩

/-- Under the happy-path guards (file present, fields present, job
resolves, extraction does not throw) the upload handler returns exactly
the spelled-out result, whatever the two AI calls do. -/
theorem uploadResume_eq_happy (env : UploadEnv) (req : UploadRequest)
    (st : Store) (now : Nat) (jid : Nat) (job : Job) (txt : String)
    (hf : req.hasFile = true) (hj : req.jobId = some jid)
    (hname : req.name ≠ "") (hemail : req.email ≠ "")
    (hx : extractResumeText env req.ext = .ok txt)
    (hjob : getJobById st jid = some job) :
    uploadResume env req st now =
      uploadHappyResult env req st now jid job txt := by
  have hjob2 : getJobById (resolveCandidate req st now txt
      (runAnalyzeResume env txt)).2 jid = some job := by
    unfold resolveCandidate
    cases hc : getCandidateByEmail st req.email with
    | some c => exact hjob
    | none => rw [getJobById_createCandidate]; exact hjob
  unfold uploadResume uploadHappyResult
  simp [hf, hj, hname, hemail, hx, hjob2]

/-- C1 counterexample to the claim as stated: a DOCX upload whose
extraction throws fails with 400 and creates nothing, although the jobId
resolves to an existing job and the blob is a supported format. -/
theorem docx_extraction_throw_aborts :
    uploadResume envDocxFail reqDocx stJob1 0 =
      (.badRequest ("Failed to parse resume file"), stJob1) ∧
    getJobById stJob1 1 = some job1 ∧ reqDocx.jobId = some 1 ∧
    reqDocx.ext = ".docx" ∧ envDocxFail.docxExtract = .error () := by
  refine ⟨by decide, by decide, by decide, by decide, rfl⟩

/-- C1 (amended): when the job exists, the blob is a supported format and
text extraction does not throw, the upload request succeeds: the
application (and, for a new email, the candidate) is created for every
outcome of the two AI calls — a matching throw yields a stored null
matchScore and null aiAnalysis, and an analysis throw is replaced by the
placeholder analysis; neither failure aborts the request. -/
theorem upload_resilient_to_ai_failures (env : UploadEnv)
    (req : UploadRequest) (st : Store) (now : Nat) (jid : Nat) (job : Job)
    (txt : String)
    (hf : req.hasFile = true) (hj : req.jobId = some jid)
    (hname : req.name ≠ "") (hemail : req.email ≠ "")
    (hx : extractResumeText env req.ext = .ok txt)
    (hjob : getJobById st jid = some job) :
    ∃ cand app an st₂,
      uploadResume env req st now = (.created cand app an, st₂) ∧
      app ∈ st₂.applications ∧ app.status = "applied" ∧ app.jobId = jid ∧
      app.candidateId = cand.id ∧ cand ∈ st₂.candidates ∧
      cand.email = req.email ∧
      (getCandidateByEmail st req.email = none →
        cand.name = req.name ∧ cand.createdAt = now) ∧
      (env.matchCandidateToJob an.skills an.experience job.requirements
          job.description = .error () →
        app.matchScore = none ∧ app.aiAnalysis = none) ∧
      (env.analyzeResume txt = .error () → an = placeholderAnalysis) := by
  rw [uploadResume_eq_happy env req st now jid job txt hf hj hname hemail hx
    hjob]
  unfold uploadHappyResult
  dsimp only
  refine ⟨_, _, _, _, rfl, ?_, rfl, rfl, rfl, ?_, ?_, ?_, ?_, ?_⟩
  · simp [createApplication]
  · simp only [createApplication]
    unfold resolveCandidate
    cases hc : getCandidateByEmail st req.email with
    | some c => simpa using (getCandidateByEmail_spec st req.email c hc).1
    | none => simp [createCandidate]
  · unfold resolveCandidate
    cases hc : getCandidateByEmail st req.email with
    | some c => exact (getCandidateByEmail_spec st req.email c hc).2
    | none => rfl
  · intro hc
    simp [resolveCandidate, hc, createCandidate]
  · intro hM
    simp [createApplication, runMatch, hM]
  · intro hA
    simp [runAnalyzeResume, hA]

/-- Witness for the C1 theorem: a PDF upload whose matching call throws
still succeeds against the existing job. -/
theorem upload_resilient_to_ai_failures_witness :
    ∃ cand app an st₂,
      uploadResume envMatchFail reqPdf stJob1 0 =
        (.created cand app an, st₂) ∧
      app ∈ st₂.applications ∧ app.status = "applied" ∧ app.jobId = 1 ∧
      app.candidateId = cand.id ∧ cand ∈ st₂.candidates ∧
      cand.email = reqPdf.email ∧
      (getCandidateByEmail stJob1 reqPdf.email = none →
        cand.name = reqPdf.name ∧ cand.createdAt = 0) ∧
      (envMatchFail.matchCandidateToJob an.skills an.experience
          job1.requirements job1.description = .error () →
        app.matchScore = none ∧ app.aiAnalysis = none) ∧
      (envMatchFail.analyzeResume "TEXT" = .error () →
        an = placeholderAnalysis) :=
  upload_resilient_to_ai_failures envMatchFail reqPdf stJob1 0 1 job1 "TEXT"
    (by decide) (by decide) (by decide) (by decide) rfl (by decide)

/-- C2 counterexample: the matching capability returning score 150 leads
to a stored matchScore of 150, outside [0,100]. -/
theorem out_of_range_score_stored :
    ((uploadResume envScore150 reqPdf stJob1 0).2.applications.map
      Application.matchScore) = [some 150] ∧ ¬((150 : Int) ≤ 100) := by
  refine ⟨?_, by decide⟩
  have h1 : ((uploadResume envScore150 reqPdf stJob1 0).2.applications.map
      Application.matchScore) = [some (jsRound 150)] := rfl
  have h2 : jsRound 150 = 150 := by norm_num [jsRound]
  rw [h2] at h1
  exact h1

/-- C2 (amended): every application in the store after a submit either
was already there, or is the created one whose matchScore and aiAnalysis
are both null (matching threw) or are the `Math.round` of the returned
score together with the returned analysis; the rounded score lies in
[0,100] whenever the returned score does — the caller only rounds, an
out-of-range score is stored unclamped. -/
theorem matchScore_null_or_rounded (env : UploadEnv) (req : UploadRequest)
    (st : Store) (now : Nat) :
    (∀ a ∈ (uploadResume env req st now).2.applications,
      a ∈ st.applications ∨ (a.matchScore = none ∧ a.aiAnalysis = none) ∨
      ∃ m, a.matchScore = some (jsRound m.score) ∧
        a.aiAnalysis = some m) ∧
    (∀ q : Rat, 0 ≤ q → q ≤ 100 → 0 ≤ jsRound q ∧ jsRound q ≤ 100) := by
  constructor
  · intro a ha
    rcases upload_applications_shape env req st now with hsh | ⟨a₀, -, hsc, hsh⟩
    · rw [hsh] at ha
      exact Or.inl ha
    · rw [hsh, List.mem_append, List.mem_singleton] at ha
      rcases ha with ha | rfl
      · exact Or.inl ha
      · exact Or.inr hsc
  · intro q h0 h100
    unfold jsRound
    constructor
    · exact Int.le_floor.mpr (by push_cast; linarith)
    · have h101 := Int.floor_lt.mpr
        (show (q + 1 / 2 : Rat) < ((101 : Int) : Rat) by push_cast; linarith)
      omega

/-- Witness for the C2 theorem: the application created with a throwing
matching call carries a null score, and a returned score of 85 rounds
into [0,100]. -/
theorem matchScore_null_or_rounded_witness :
    (appNoScore ∈ stOneApp.applications ∨
      (appNoScore.matchScore = none ∧ appNoScore.aiAnalysis = none) ∨
      ∃ m, appNoScore.matchScore = some (jsRound m.score) ∧
        appNoScore.aiAnalysis = some m) ∧
    (0 ≤ jsRound 85 ∧ jsRound 85 ≤ 100) :=
  ⟨(matchScore_null_or_rounded envMatchFail reqPdf stOneApp 0).1 appNoScore
      (by decide),
   (matchScore_null_or_rounded envMatchFail reqPdf stOneApp 0).2 85
      (by norm_num) (by norm_num)⟩


/-- The ranking comparator's "may precede" relation coincides with the
ordering the spec describes. -/
theorem rankLE_iff_claimRel (a b : CandidateWithApps) :
    rankLE a b ↔ claimRel a b := by
  unfold rankLE rankCmp claimRel
  by_cases ha : a.applications = [] <;> by_cases hb : b.applications = [] <;>
    simp [ha, hb]

/-- C8: the candidate list is a permutation of its input, consecutive
candidates obey the spec ordering (maximum matchScore descending;
candidates with no applications after all others, newer createdAt first
among them), and in particular A (max 90), B (max 40), C (no
applications) comes out as [A, B, C]. -/
theorem candidates_ranked (l : List CandidateWithApps) :
    List.Perm (rankCandidates l) l ∧
    List.Pairwise claimRel (rankCandidates l) ∧
    rankCandidates [candRankC, candRankB, candRankA] =
      [candRankA, candRankB, candRankC] := by
  refine ⟨List.perm_insertionSort rankLE l, ?_, by decide⟩
  have hs := List.sorted_insertionSort rankLE l
  exact List.Pairwise.imp (fun hab => (rankLE_iff_claimRel _ _).mp hab) hs

/-- Witness for the C8 theorem: the concrete A, B, C ranking scenario. -/
theorem candidates_ranked_witness :
    rankCandidates [candRankC, candRankB, candRankA] =
      [candRankA, candRankB, candRankC] :=
  (candidates_ranked []).2.2

/-- Shape of the candidate table after one upload request: either
untouched (in particular whenever the email already resolves), or — only
when the email was unknown — one new candidate with that email appended. -/
theorem upload_candidates_shape (env : UploadEnv) (req : UploadRequest)
    (st : Store) (now : Nat) :
    (uploadResume env req st now).2.candidates = st.candidates ∨
    (getCandidateByEmail st req.email = none ∧
      ∃ c, c.email = req.email ∧
        (uploadResume env req st now).2.candidates =
          st.candidates ++ [c]) := by
  unfold uploadResume
  split
  · left; rfl
  split
  · left; rfl
  split
  · left; rfl
  split
  · left; rfl
  dsimp only
  cases hc : getCandidateByEmail st req.email with
  | none =>
    split
    · right
      exact ⟨rfl, (resolveCandidate req st now _ _).1,
        (resolveCandidate_none req st now _ _ hc).1,
        (resolveCandidate_none req st now _ _ hc).2⟩
    · right
      exact ⟨rfl, (resolveCandidate req st now _ _).1,
        (resolveCandidate_none req st now _ _ hc).1,
        (resolveCandidate_none req st now _ _ hc).2⟩
  | some c =>
    split
    · left
      simp [resolveCandidate, hc]
    · left
      simp [resolveCandidate, hc, createApplication]

/-- One upload request preserves email uniqueness of the candidate table. -/
theorem emailsUnique_step (env : UploadEnv) (req : UploadRequest)
    (st : Store) (now : Nat) (h : EmailsUnique st) :
    EmailsUnique (uploadResume env req st now).2 := by
  rcases upload_candidates_shape env req st now with hq | ⟨hc, c, hcem, hq⟩
  · unfold EmailsUnique
    rw [hq]
    exact h
  · unfold EmailsUnique at h ⊢
    rw [hq, List.pairwise_append]
    refine ⟨h, List.pairwise_singleton _ _, ?_⟩
    intro x hx y hy
    rw [List.mem_singleton] at hy
    subst hy
    rw [hcem]
    exact getCandidateByEmail_none st req.email hc x hx

/-- C7: starting from a store with unique candidate emails, any sequence
of submits keeps emails unique — a submit whose email already resolves
creates no candidate at all — and a successful such submit returns the
stored candidate and creates an application referencing its id. -/
theorem email_unique_across_submits (st : Store)
    (subs : List (UploadEnv × UploadRequest × Nat)) (env : UploadEnv)
    (req : UploadRequest) (now : Nat) (c : Candidate)
    (h : EmailsUnique st) (hc : getCandidateByEmail st req.email = some c) :
    EmailsUnique (runSubmits st subs) ∧
    (uploadResume env req st now).2.candidates = st.candidates ∧
    (∀ jid job txt, req.hasFile = true → req.jobId = some jid →
      req.name ≠ "" → req.email ≠ "" →
      extractResumeText env req.ext = .ok txt →
      getJobById st jid = some job →
      ∃ app an st₂,
        uploadResume env req st now = (.created c app an, st₂) ∧
        app.candidateId = c.id ∧ app ∈ st₂.applications) := by
  refine ⟨?_, ?_, ?_⟩
  · clear hc
    induction subs generalizing st with
    | nil => exact h
    | cons sub rest ih =>
      obtain ⟨env₀, req₀, now₀⟩ := sub
      exact ih _ (emailsUnique_step env₀ req₀ st now₀ h)
  · rcases upload_candidates_shape env req st now with hq | ⟨hc', -⟩
    · exact hq
    · rw [hc] at hc'
      exact absurd hc' (by simp)
  · intro jid job txt hf hj hname hemail hx hjob
    rw [uploadResume_eq_happy env req st now jid job txt hf hj hname hemail
      hx hjob]
    unfold uploadHappyResult
    dsimp only
    have hcs : resolveCandidate req st now txt (runAnalyzeResume env txt) =
        (c, st) := by
      unfold resolveCandidate
      rw [hc]
    rw [hcs]
    exact ⟨_, _, _, rfl, rfl, by simp [createApplication]⟩

/-- Witness for the C7 theorem: jane already exists; a second submit with
her email against job 2 creates no candidate and links the new
application to her id. -/
theorem email_unique_across_submits_witness :
    EmailsUnique (runSubmits stJane [(envBase, reqPdf, 0)]) ∧
    (uploadResume envBase reqPdfJob2 stJane 1).2.candidates =
      stJane.candidates ∧
    (∃ app an st₂,
      uploadResume envBase reqPdfJob2 stJane 1 = (.created candJane app an, st₂) ∧
      app.candidateId = candJane.id ∧ app ∈ st₂.applications) :=
  have h := email_unique_across_submits stJane [(envBase, reqPdf, 0)] envBase
    reqPdfJob2 1 candJane (by simp [EmailsUnique, stJane]) rfl
  ⟨h.1, h.2.1,
    h.2.2 2 job2 "TEXT" (by decide) rfl (by decide) (by decide) rfl rfl⟩

/-- C9 counterexample to the claim as stated: a PDF upload whose
pdf-parse call throws still succeeds — extraction failure is not fatal
for the PDF format. -/
theorem pdf_extraction_throw_not_fatal :
    (uploadResume envPdfFail reqPdf stJob1 0).1.isCreated = true ∧
    envPdfFail.pdfParse = .error () ∧ reqPdf.ext = ".pdf" := by
  refine ⟨by decide, rfl, rfl⟩

/-- C9 (amended): extraction failure is fatal only for DOCX — a mammoth
throw aborts the request with 400 and stores nothing; a pdf-parse throw
is swallowed and the request proceeds exactly as if extraction had
returned empty text; an analysis throw is non-fatal for both formats,
proceeding exactly as if the analysis had returned the placeholder
fields. -/
theorem extraction_fatal_only_for_docx (env : UploadEnv)
    (req : UploadRequest) (st : Store) (now : Nat) :
    (∀ jid, req.hasFile = true → req.jobId = some jid → req.name ≠ "" →
      req.email ≠ "" → req.ext = ".docx" → env.docxExtract = .error () →
      uploadResume env req st now =
        (.badRequest ("Failed to parse resume file"), st)) ∧
    (req.ext = ".pdf" → env.pdfParse = .error () →
      uploadResume env req st now =
        uploadResume { env with pdfParse := .ok "" } req st now) ∧
    (uploadResume { env with analyzeResume := (fun _ => .error ()) } req st
        now =
      uploadResume
        { env with analyzeResume := (fun _ => .ok placeholderAnalysis) }
        req st now) := by
  refine ⟨?_, ?_, ?_⟩
  · intro jid hf hj hname hemail hext hdocx
    unfold uploadResume
    simp [hf, hj, hname, hemail, extractResumeText, hext, hdocx,
      extractTextFromDOCX]
  · intro hext hpdf
    unfold uploadResume
    simp [extractResumeText, hext, extractTextFromPDF, hpdf]
    rfl
  · rfl

/-- Witness for the C9 theorem at concrete requests. -/
theorem extraction_fatal_only_for_docx_witness :
    uploadResume envDocxFail reqDocx stJob1 0 =
      (.badRequest ("Failed to parse resume file"), stJob1) ∧
    uploadResume envPdfFail reqPdf stJob1 0 =
      uploadResume { envPdfFail with pdfParse := .ok "" } reqPdf stJob1 0 :=
  have h := extraction_fatal_only_for_docx envDocxFail reqDocx stJob1 0
  have h2 := extraction_fatal_only_for_docx envPdfFail reqPdf stJob1 0
  ⟨h.1 1 (by decide) rfl (by decide) (by decide) rfl rfl,
   h2.2.1 rfl rfl⟩

/-- C10: a submit with an unknown email and an unresolvable jobId fails
with NotFound "Job not found", creates no application, and yet leaves a
freshly created candidate with that email in the store — the operation is
not atomic across its candidate-creation and job-resolution steps. -/
theorem candidate_left_behind_on_missing_job (env : UploadEnv)
    (req : UploadRequest) (st : Store) (now : Nat) (jid : Nat)
    (hf : req.hasFile = true) (hj : req.jobId = some jid)
    (hname : req.name ≠ "") (hemail : req.email ≠ "")
    (hx : ∃ txt, extractResumeText env req.ext = .ok txt)
    (hc : getCandidateByEmail st req.email = none)
    (hjob : getJobById st jid = none) :
    (uploadResume env req st now).1 = .notFound ("Job not found") ∧
    (uploadResume env req st now).2.applications = st.applications ∧
    (∃ c ∈ (uploadResume env req st now).2.candidates,
      c.email = req.email) ∧
    (∀ c ∈ st.candidates, c.email ≠ req.email) := by
  obtain ⟨txt, hx⟩ := hx
  have hjob2 : getJobById (resolveCandidate req st now txt
      (runAnalyzeResume env txt)).2 jid = none := by
    unfold resolveCandidate
    rw [hc, getJobById_createCandidate]
    exact hjob
  have hres : uploadResume env req st now =
      (.notFound ("Job not found"),
        (resolveCandidate req st now txt (runAnalyzeResume env txt)).2) := by
    unfold uploadResume
    simp [hf, hj, hname, hemail, hx, hjob2]
  rw [hres]
  refine ⟨rfl, ?_, ?_, getCandidateByEmail_none st req.email hc⟩
  · exact resolveCandidate_apps req st now _ _
  · refine ⟨(resolveCandidate req st now txt (runAnalyzeResume env txt)).1,
      ?_, (resolveCandidate_none req st now txt _ hc).1⟩
    rw [(resolveCandidate_none req st now txt _ hc).2]
    simp

/-- Witness for the C10 theorem: jane's upload against the nonexistent
job 99 fails but leaves her candidate record behind. -/
theorem candidate_left_behind_on_missing_job_witness :
    (uploadResume envBase reqPdfNoJob stJob1 0).1 =
      .notFound ("Job not found") ∧
    (uploadResume envBase reqPdfNoJob stJob1 0).2.applications =
      stJob1.applications ∧
    (∃ c ∈ (uploadResume envBase reqPdfNoJob stJob1 0).2.candidates,
      c.email = reqPdfNoJob.email) ∧
    (∀ c ∈ stJob1.candidates, c.email ≠ reqPdfNoJob.email) :=
  candidate_left_behind_on_missing_job envBase reqPdfNoJob stJob1 0 99
    (by decide) rfl (by decide) (by decide) ⟨"TEXT", rfl⟩ rfl rfl


end TalentFlow
